import Mathlib

/-!
A verification development for the table-booking request handler
(`src/task11/src/lambdas/api_handler/handler.py`).

The handler's business logic is embedded shallowly:

* `parseHM` embeds `datetime.datetime.strptime(s, "%H:%M").time()`:
  CPython's `_strptime` compiles `"%H:%M"` to the regular expression
  `(2[0-3]|[0-1]\d|\d):([0-5]\d|\d)` anchored at the start, and raises
  `ValueError` when the match fails or leaves unconverted trailing data.
  A time of day is represented as minutes after midnight, which orders
  `datetime.time` values exactly as Python's `<=` does within one day.
  Character classes are scoped to ASCII throughout the development.
* `is_overlapping`, `create_reservation`, `create_table`, `get_table`,
  `get_tables` follow the methods of the same names of `ApiHandler`.
  The DynamoDB-backed stores are lists of records; `put_item` on a
  keyed store replaces the item holding the same key (the store is
  unordered, so replacement is modelled as erase-then-append), and
  `scan` returns the list. `create_reservation` also returns the list
  of store operations it performed, in order, so that statements about
  "no ledger read/write" can be made.
* Python exceptions become `Except Err`; the distinct `ValueError`s of
  the source are distinguishable constructors of `Err`.
-/

namespace BookingApp

/-- A record of the `Tables` store (`create_table` in the source builds
`{"id", "number", "places", "isVip"}` plus `"minOrder"` when supplied). -/
structure Table where
  id : Int
  number : Int
  places : Int
  isVip : Bool
  minOrder : Option Int
deriving Repr, DecidableEq

/-- A record of the `Reservations` store, as built by `create_reservation`. -/
structure Reservation where
  id : String
  tableNumber : Int
  clientName : String
  phoneNumber : String
  date : String
  slotTimeStart : String
  slotTimeEnd : String
deriving Repr, DecidableEq

/-- The distinguishable failures raised by the handler (all of them are
`ValueError` in the source, with distinct messages). -/
inductive Err where
  | parseError : String → Err
  | tableNotFound : Int → Err
  | slotConflict : Err
  | invalidEmail : Err
  | invalidPassword : Err
  | upstreamFailure : Err
deriving Repr, DecidableEq

/-- The two DynamoDB tables backing the handler. -/
structure Store where
  tables : List Table
  reservations : List Reservation
deriving Repr, DecidableEq

/-- Store operations, recorded in the order they are issued. -/
inductive Op where
  | tablesScan : Op
  | reservationsScan : Op
  | reservationsPut : Op
deriving Repr, DecidableEq

/-- Numeric value of an ASCII digit. -/
def digitVal (c : Char) : Nat := c.toNat - 48

/-- Embeds `strptime(s, "%H:%M")`, i.e. the anchored regular expression
`(2[0-3]|[0-1]\d|\d):([0-5]\d|\d)` which must consume the whole string
(CPython raises "unconverted data remains" otherwise).  The hour field is
one digit, or two digits of value at most 23; the minute field is one
digit, or two digits of value at most 59; exactly one `:` between them. -/
def parseHM (s : String) : Option (Nat × Nat) :=
  match s.data with
  | [h, ':', m] =>
    if h.isDigit && m.isDigit then some (digitVal h, digitVal m) else none
  | [h, ':', m1, m2] =>
    if h.isDigit && m1.isDigit && m2.isDigit &&
        decide (10 * digitVal m1 + digitVal m2 ≤ 59) then
      some (digitVal h, 10 * digitVal m1 + digitVal m2)
    else none
  | [h1, h2, ':', m] =>
    if h1.isDigit && h2.isDigit && decide (10 * digitVal h1 + digitVal h2 ≤ 23) &&
        m.isDigit then
      some (10 * digitVal h1 + digitVal h2, digitVal m)
    else none
  | [h1, h2, ':', m1, m2] =>
    if h1.isDigit && h2.isDigit && decide (10 * digitVal h1 + digitVal h2 ≤ 23) &&
        m1.isDigit && m2.isDigit && decide (10 * digitVal m1 + digitVal m2 ≤ 59) then
      some (10 * digitVal h1 + digitVal h2, 10 * digitVal m1 + digitVal m2)
    else none
  | _ => none

/-- Minutes after midnight; `datetime.time` comparison agrees with `≤` on it. -/
def toMin (p : Nat × Nat) : Nat := 60 * p.1 + p.2

/-- The time-of-day value of a string, when it parses. -/
def hmVal (s : String) : Option Nat := (parseHM s).map toMin

/-- The strict zero-padded 24-hour `HH:MM` shape: exactly two digits, a
colon, two digits, with hour at most 23 and minute at most 59. -/
def strictHM (s : String) : Bool :=
  match s.data with
  | [h1, h2, ':', m1, m2] =>
    h1.isDigit && h2.isDigit && decide (10 * digitVal h1 + digitVal h2 ≤ 23) &&
      m1.isDigit && m2.isDigit && decide (10 * digitVal m1 + digitVal m2 ≤ 59)
  | _ => false

/-- Embeds `ApiHandler.is_overlapping`: parse the four strings in source order
(`start1`, `end1`, `start2`, `end2`), then return
`start1 <= start2 <= end1 or start1 <= end2 <= end1`. -/
def is_overlapping (start1 end1 start2 end2 : String) : Except Err Bool :=
  match parseHM start1 with
  | none => Except.error (Err.parseError start1)
  | some p1 =>
    match parseHM end1 with
    | none => Except.error (Err.parseError end1)
    | some q1 =>
      match parseHM start2 with
      | none => Except.error (Err.parseError start2)
      | some p2 =>
        match parseHM end2 with
        | none => Except.error (Err.parseError end2)
        | some q2 =>
          Except.ok (decide ((toMin p1 ≤ toMin p2 ∧ toMin p2 ≤ toMin q1) ∨
            (toMin p1 ≤ toMin q2 ∧ toMin q2 ≤ toMin q1)))

/-- Whether a checker run returned a boolean (as opposed to raising). -/
def exceptIsOk (e : Except Err Bool) : Bool :=
  match e with
  | Except.ok _ => true
  | Except.error _ => false

instance : DecidableEq (Except Err Bool) := fun a b =>
  match a, b with
  | Except.ok x, Except.ok y =>
    if h : x = y then isTrue (by rw [h]) else isFalse (by simp [h])
  | Except.ok _, Except.error _ => isFalse (by simp)
  | Except.error _, Except.ok _ => isFalse (by simp)
  | Except.error x, Except.error y =>
    if h : x = y then isTrue (by rw [h]) else isFalse (by simp [h])

instance : DecidableEq (Except Err String) := fun a b =>
  match a, b with
  | Except.ok x, Except.ok y =>
    if h : x = y then isTrue (by rw [h]) else isFalse (by simp [h])
  | Except.ok _, Except.error _ => isFalse (by simp)
  | Except.error _, Except.ok _ => isFalse (by simp)
  | Except.error x, Except.error y =>
    if h : x = y then isTrue (by rw [h]) else isFalse (by simp [h])

/-- Embeds `tables_table.put_item(Item=item)`: DynamoDB replaces the item whose
key `id` equals the new item's; the store is unordered, modelled as
erase-matching-then-append. -/
def putItemTable (ts : List Table) (t : Table) : List Table :=
  ts.filter (fun u => !(u.id == t.id)) ++ [t]

/-- Embeds `reservations_table.put_item(Item=item)`, keyed on the string `id`. -/
def putItemReservation (rs : List Reservation) (r : Reservation) : List Reservation :=
  rs.filter (fun u => !(u.id == r.id)) ++ [r]

/-- Embeds `ApiHandler.create_table`: builds the item (with `minOrder` only when
supplied), stores it unconditionally, returns the given `id`. -/
def create_table (s : Store) (id number places : Int) (isVip : Bool)
    (minOrder : Option Int) : Int × Store :=
  (id, { s with tables := putItemTable s.tables ⟨id, number, places, isVip, minOrder⟩ })

/-- Embeds `ApiHandler.get_table`: `get_item(Key={"id": table_id})`; accessing
`response["Item"]` raises when absent, modelled as `none`. -/
def get_table (s : Store) (table_id : Int) : Option Table :=
  s.tables.find? (fun t => t.id == table_id)

/-- Embeds `ApiHandler.get_tables`: scan the tables store and return the items
sorted ascending by `id` (Python `sorted` with key `table["id"]`). -/
def get_tables (s : Store) : List Table :=
  s.tables.mergeSort (fun a b => a.id ≤ b.id)

/-- The reservation-scanning loop of `ApiHandler.create_reservation`: for
each existing reservation with equal `tableNumber` and (string-equal)
`date`, run `is_overlapping(existing, candidate)`; raise out of the loop
on the first `True`, propagate a parse failure, otherwise keep scanning. -/
def findConflict (rs : List Reservation) (tableNumber : Int)
    (date slotTimeStart slotTimeEnd : String) : Except Err Bool :=
  match rs with
  | [] => Except.ok false
  | r :: rest =>
    if r.tableNumber == tableNumber && r.date == date then
      match is_overlapping r.slotTimeStart r.slotTimeEnd slotTimeStart slotTimeEnd with
      | Except.error e => Except.error e
      | Except.ok true => Except.ok true
      | Except.ok false => findConflict rest tableNumber date slotTimeStart slotTimeEnd
    else
      findConflict rest tableNumber date slotTimeStart slotTimeEnd

/-- Embeds `ApiHandler.create_reservation`.  The fresh `str(uuid.uuid4())` is
passed in as `newId`.  Returns the handler's result, the store after the
call, and the list of store operations issued, in order:

1. scan the tables store; raise `Table not found` when no table's
   `number` equals `tableNumber` (before ever touching the ledger);
2. scan the reservations ledger and run `findConflict`; raise
   `slotConflict` on a flagged overlap, propagate a parse failure;
3. otherwise put the new reservation item and return its id. -/
def create_reservation (s : Store) (newId : String) (tableNumber : Int)
    (clientName phoneNumber date slotTimeStart slotTimeEnd : String) :
    Except Err String × Store × List Op :=
  if s.tables.any (fun t => t.number == tableNumber) then
    match findConflict s.reservations tableNumber date slotTimeStart slotTimeEnd with
    | Except.error e => (Except.error e, s, [Op.tablesScan, Op.reservationsScan])
    | Except.ok true =>
      (Except.error Err.slotConflict, s, [Op.tablesScan, Op.reservationsScan])
    | Except.ok false =>
      let r : Reservation :=
        ⟨newId, tableNumber, clientName, phoneNumber, date, slotTimeStart, slotTimeEnd⟩
      (Except.ok newId, { s with reservations := putItemReservation s.reservations r },
        [Op.tablesScan, Op.reservationsScan, Op.reservationsPut])
  else
    (Except.error (Err.tableNotFound tableNumber), s, [Op.tablesScan])

/-- The ledger states reachable from a reservation-free store by
(non-concurrent) successful bookings; each booking gets a fresh
identifier (`uuid.uuid4()` never repeats). -/
inductive Reachable : Store → Prop where
  | init : ∀ ts : List Table, Reachable ⟨ts, []⟩
  | step : ∀ (s : Store) (newId : String) (tableNumber : Int)
      (clientName phoneNumber date slotTimeStart slotTimeEnd : String),
      Reachable s →
      (∀ r ∈ s.reservations, r.id ≠ newId) →
      (create_reservation s newId tableNumber clientName phoneNumber date
        slotTimeStart slotTimeEnd).1 = Except.ok newId →
      Reachable (create_reservation s newId tableNumber clientName phoneNumber date
        slotTimeStart slotTimeEnd).2.1

/-- Python regex `\w` (ASCII scope): letters, digits, underscore. -/
def isWordChar (c : Char) : Bool := c.isAlpha || c.isDigit || c == '_'

/-- Python regex `\s` (ASCII scope). -/
def isSpaceChar (c : Char) : Bool :=
  c == ' ' || c == '\t' || c == '\n' || c == '\r' || c == '\x0b' || c == '\x0c'

/-- The password regex's symbol class `[^\w\s]`. -/
def isSymbolChar (c : Char) : Bool := !isWordChar c && !isSpaceChar c

/-- The part of a string a `$`-terminated match can span: everything up
to a single trailing newline, which `$` is allowed to sit in front of. -/
def regexBody : List Char → List Char
  | [] => []
  | [c] => if c == '\n' then [] else [c]
  | c :: d :: rest => c :: regexBody (d :: rest)

/-- The regex fragment `(?=.*X)` read at the start of the string, with `X`
a character class: either the class matches here, or `.` (anything but a
newline) consumes the head and the search continues. -/
def lookahead (p : Char → Bool) : List Char → Bool
  | [] => false
  | c :: rest => p c || (!(c == '\n') && lookahead p rest)

/-- Python's `$` without `MULTILINE`: matches at the end of the string or
just before a newline that ends the string. -/
def dollarAt : List Char → Bool
  | [] => true
  | [c] => c == '\n'
  | _ :: _ :: _ => false

/-- The regex fragment `.{k,}$`: consume at least `k` non-newline
characters (backtracking over how many), then `$`. -/
def dotMinTail : Nat → List Char → Bool
  | 0, [] => true
  | 0, c :: rest => dollarAt (c :: rest) || (!(c == '\n') && dotMinTail 0 rest)
  | _ + 1, [] => false
  | k + 1, c :: rest => !(c == '\n') && dotMinTail k rest

/-- Embeds `ApiHandler.validate_password`:
`re.match(r"^(?=.*[a-zA-Z])(?=.*\d)(?=.*[^\w\s]).{12,}$", password)`,
read off the regex structure fragment by fragment. -/
def validate_password (password : String) : Bool :=
  lookahead Char.isAlpha password.data && lookahead Char.isDigit password.data &&
    lookahead isSymbolChar password.data && dotMinTail 12 password.data

/-- The email regex's local-part class `[a-zA-Z0-9_.+-]`. -/
def localClass (c : Char) : Bool :=
  c.isAlpha || c.isDigit || c == '_' || c == '.' || c == '+' || c == '-'

/-- The email regex's first domain-label class `[a-zA-Z0-9-]`. -/
def domClass (c : Char) : Bool := c.isAlpha || c.isDigit || c == '-'

/-- The email regex's domain-tail class `[a-zA-Z0-9-.]`. -/
def domTailClass (c : Char) : Bool := domClass c || c == '.'

mutual

/-- The regex fragment `[p]+` followed by continuation `k`, with full
backtracking over how many class characters it consumes (at least one). -/
def plusTail (p : Char → Bool) (k : List Char → Bool) : List Char → Bool
  | [] => false
  | c :: rest => p c && plusRest p k rest

/-- After `[p]+` has consumed at least one character: hand the rest to the
continuation, or consume one more class character. -/
def plusRest (p : Char → Bool) (k : List Char → Bool) : List Char → Bool
  | [] => k []
  | c :: rest => k (c :: rest) || (p c && plusRest p k rest)

end

/-- Embeds `ApiHandler.validate_email`:
`re.match(r"^[a-zA-Z0-9_.+-]+@[a-zA-Z0-9-]+\.[a-zA-Z0-9-.]+$", email)`,
read off the regex structure with backtracking continuations. -/
def validate_email (email : String) : Bool :=
  plusTail localClass
    (fun l1 =>
      match l1 with
      | '@' :: d =>
        plusTail domClass
          (fun l2 =>
            match l2 with
            | '.' :: d2 => plusTail domTailClass dollarAt d2
            | _ => false) d
      | _ => false)
    email.data

/-- Responses of the external identity provider (Cognito): the user pool
found by `get_user_pool_id`, the client found by `get_user_pool_client_id`,
and the token issued by `initiate_auth` (none models a raised failure). -/
structure Idp where
  poolId : Option String
  clientId : Option String
  authToken : String → String → Option String

/-- Calls issued to the identity provider, in order. -/
inductive IdpCall where
  | listUserPools : IdpCall
  | listUserPoolClients : IdpCall
  | adminCreateUser : String → String → String → String → IdpCall
  | adminSetUserPassword : String → String → IdpCall
  | initiateAuth : String → String → IdpCall
deriving Repr, DecidableEq

/-- Embeds `ApiHandler.signin`: validate the email, then the password, and only
then contact the identity provider (pool lookup, client lookup,
`initiate_auth`).  Returns the result and the provider calls issued. -/
def signin (idp : Idp) (email password : String) : Except Err String × List IdpCall :=
  if !validate_email email then (Except.error Err.invalidEmail, [])
  else if !validate_password password then (Except.error Err.invalidPassword, [])
  else
    match idp.poolId with
    | none => (Except.error Err.upstreamFailure, [IdpCall.listUserPools])
    | some _ =>
      match idp.clientId with
      | none =>
        (Except.error Err.upstreamFailure,
          [IdpCall.listUserPools, IdpCall.listUserPoolClients])
      | some _ =>
        match idp.authToken email password with
        | none =>
          (Except.error Err.upstreamFailure,
            [IdpCall.listUserPools, IdpCall.listUserPoolClients,
              IdpCall.initiateAuth email password])
        | some tok =>
          (Except.ok tok,
            [IdpCall.listUserPools, IdpCall.listUserPoolClients,
              IdpCall.initiateAuth email password])

/-- Embeds `ApiHandler.signup`: the same two validations in the same order, then
the pool lookup and the two admin calls (modelled as succeeding once the
pool is found; their outcomes are outside the specified core). -/
def signup (idp : Idp) (email firstName lastName password : String) :
    Except Err Unit × List IdpCall :=
  if !validate_email email then (Except.error Err.invalidEmail, [])
  else if !validate_password password then (Except.error Err.invalidPassword, [])
  else
    match idp.poolId with
    | none => (Except.error Err.upstreamFailure, [IdpCall.listUserPools])
    | some _ =>
      (Except.ok (),
        [IdpCall.listUserPools, IdpCall.adminCreateUser email firstName lastName password,
          IdpCall.adminSetUserPassword email password])

/-! ## Helper lemmas -/

theorem is_overlapping_eval (es ee cs ce : String) (p q u v : Nat × Nat)
    (hp : parseHM es = some p) (hq : parseHM ee = some q)
    (hu : parseHM cs = some u) (hv : parseHM ce = some v) :
    is_overlapping es ee cs ce =
      Except.ok (decide ((toMin p ≤ toMin u ∧ toMin u ≤ toMin q) ∨
        (toMin p ≤ toMin v ∧ toMin v ≤ toMin q))) := by
  unfold is_overlapping
  rw [hp, hq, hu, hv]

theorem strictHM_isSome (s : String) (h : strictHM s = true) : (parseHM s).isSome = true := by
  unfold strictHM at h
  split at h
  case _ h1 h2 m1 m2 heq =>
    unfold parseHM
    rw [heq]
    simp only [h]
    rfl
  case _ => exact absurd h (by simp)

theorem is_overlapping_isOk (s1 e1 s2 e2 : String) :
    exceptIsOk (is_overlapping s1 e1 s2 e2) =
      ((parseHM s1).isSome && (parseHM e1).isSome &&
        (parseHM s2).isSome && (parseHM e2).isSome) := by
  unfold is_overlapping exceptIsOk
  cases h1 : parseHM s1 <;> cases h2 : parseHM e1 <;>
    cases h3 : parseHM s2 <;> cases h4 : parseHM e2 <;> simp

theorem findConflict_ok_false_iff (rs : List Reservation) (tn : Int)
    (date st en : String) :
    findConflict rs tn date st en = Except.ok false ↔
      ∀ r ∈ rs, r.tableNumber = tn → r.date = date →
        is_overlapping r.slotTimeStart r.slotTimeEnd st en = Except.ok false := by
  induction rs with
  | nil => simp [findConflict]
  | cons r rest ih =>
    unfold findConflict
    by_cases hm : r.tableNumber == tn && r.date == date
    · rw [if_pos hm]
      simp only [Bool.and_eq_true, beq_iff_eq] at hm
      cases hov : is_overlapping r.slotTimeStart r.slotTimeEnd st en with
      | error e =>
        simp only [List.mem_cons]
        constructor
        · intro hfalse
          exact absurd hfalse (by simp)
        · intro hall
          have := hall r (Or.inl rfl) hm.1 hm.2
          rw [hov] at this
          exact absurd this (by simp)
      | ok b =>
        cases b with
        | true =>
          simp only [List.mem_cons]
          constructor
          · intro hfalse
            exact absurd hfalse (by simp)
          · intro hall
            have := hall r (Or.inl rfl) hm.1 hm.2
            rw [hov] at this
            exact absurd this (by simp)
        | false =>
          rw [ih]
          constructor
          · intro hall r' hr' ht hd
            rcases List.mem_cons.mp hr' with hr' | hr'
            · rw [hr', hov]
            · exact hall r' hr' ht hd
          · intro hall r' hr' ht hd
            exact hall r' (List.mem_cons_of_mem _ hr') ht hd
    · rw [if_neg hm]
      rw [ih]
      simp only [Bool.and_eq_true, beq_iff_eq, not_and_or] at hm
      constructor
      · intro hall r' hr' ht hd
        rcases List.mem_cons.mp hr' with hr' | hr'
        · subst hr'
          rcases hm with hm | hm
          · exact absurd ht hm
          · exact absurd hd hm
        · exact hall r' hr' ht hd
      · intro hall r' hr' ht hd
        exact hall r' (List.mem_cons_of_mem _ hr') ht hd

theorem findConflict_ok_true_iff (rs : List Reservation) (tn : Int)
    (date st en : String)
    (hp : ∀ r ∈ rs, r.tableNumber = tn → r.date = date →
      exceptIsOk (is_overlapping r.slotTimeStart r.slotTimeEnd st en) = true) :
    findConflict rs tn date st en = Except.ok true ↔
      ∃ r ∈ rs, r.tableNumber = tn ∧ r.date = date ∧
        is_overlapping r.slotTimeStart r.slotTimeEnd st en = Except.ok true := by
  induction rs with
  | nil => simp [findConflict]
  | cons r rest ih =>
    have hprest : ∀ r' ∈ rest, r'.tableNumber = tn → r'.date = date →
        exceptIsOk (is_overlapping r'.slotTimeStart r'.slotTimeEnd st en) = true :=
      fun r' hr' => hp r' (List.mem_cons_of_mem _ hr')
    unfold findConflict
    by_cases hm : r.tableNumber == tn && r.date == date
    · rw [if_pos hm]
      simp only [Bool.and_eq_true, beq_iff_eq] at hm
      cases hov : is_overlapping r.slotTimeStart r.slotTimeEnd st en with
      | error e =>
        have := hp r (List.mem_cons_self r rest) hm.1 hm.2
        rw [hov] at this
        exact absurd this (by simp [exceptIsOk])
      | ok b =>
        cases b with
        | true =>
          constructor
          · intro _
            exact ⟨r, List.mem_cons_self r rest, hm.1, hm.2, hov⟩
          · intro _
            rfl
        | false =>
          rw [ih hprest]
          constructor
          · intro ⟨r', hr', ht, hd, hov'⟩
            exact ⟨r', List.mem_cons_of_mem _ hr', ht, hd, hov'⟩
          · intro ⟨r', hr', ht, hd, hov'⟩
            rcases List.mem_cons.mp hr' with hr' | hr'
            · subst hr'
              rw [hov] at hov'
              exact absurd hov' (by simp)
            · exact ⟨r', hr', ht, hd, hov'⟩
    · rw [if_neg hm]
      simp only [Bool.and_eq_true, beq_iff_eq, not_and_or] at hm
      rw [ih hprest]
      constructor
      · intro ⟨r', hr', ht, hd, hov'⟩
        exact ⟨r', List.mem_cons_of_mem _ hr', ht, hd, hov'⟩
      · intro ⟨r', hr', ht, hd, hov'⟩
        rcases List.mem_cons.mp hr' with hr' | hr'
        · subst hr'
          rcases hm with hm | hm
          · exact absurd ht hm
          · exact absurd hd hm
        · exact ⟨r', hr', ht, hd, hov'⟩

theorem findConflict_not_error (rs : List Reservation) (tn : Int)
    (date st en : String)
    (hp : ∀ r ∈ rs, r.tableNumber = tn → r.date = date →
      exceptIsOk (is_overlapping r.slotTimeStart r.slotTimeEnd st en) = true) :
    findConflict rs tn date st en = Except.ok true ∨
      findConflict rs tn date st en = Except.ok false := by
  induction rs with
  | nil => exact Or.inr (by simp [findConflict])
  | cons r rest ih =>
    have hprest : ∀ r' ∈ rest, r'.tableNumber = tn → r'.date = date →
        exceptIsOk (is_overlapping r'.slotTimeStart r'.slotTimeEnd st en) = true :=
      fun r' hr' => hp r' (List.mem_cons_of_mem _ hr')
    unfold findConflict
    by_cases hm : r.tableNumber == tn && r.date == date
    · rw [if_pos hm]
      simp only [Bool.and_eq_true, beq_iff_eq] at hm
      cases hov : is_overlapping r.slotTimeStart r.slotTimeEnd st en with
      | error e =>
        have := hp r (List.mem_cons_self r rest) hm.1 hm.2
        rw [hov] at this
        exact absurd this (by simp [exceptIsOk])
      | ok b =>
        cases b with
        | true => exact Or.inl rfl
        | false => exact ih hprest
    · rw [if_neg hm]
      exact ih hprest

theorem filter_ne_id_eq_self (rs : List Reservation) (newId : String)
    (hfresh : ∀ r ∈ rs, r.id ≠ newId) :
    rs.filter (fun u => !(u.id == newId)) = rs := by
  refine List.filter_eq_self.mpr ?_
  intro r hr
  simp [hfresh r hr]

theorem create_reservation_ok_inv (s : Store) (newId : String) (tn : Int)
    (cn pn date st en v : String)
    (h : (create_reservation s newId tn cn pn date st en).1 = Except.ok v) :
    s.tables.any (fun t => t.number == tn) = true ∧
      findConflict s.reservations tn date st en = Except.ok false ∧
      v = newId ∧
      (create_reservation s newId tn cn pn date st en).2.1 =
        { s with reservations :=
            putItemReservation s.reservations ⟨newId, tn, cn, pn, date, st, en⟩ } := by
  unfold create_reservation at h ⊢
  by_cases htab : s.tables.any (fun t => t.number == tn)
  · rw [if_pos htab] at h ⊢
    cases hfc : findConflict s.reservations tn date st en with
    | error e =>
      rw [hfc] at h
      exact absurd h (by simp)
    | ok b =>
      cases b with
      | true =>
        rw [hfc] at h
        exact absurd h (by simp)
      | false =>
        rw [hfc] at h
        have h' : Except.ok (ε := Err) newId = Except.ok v := h
        have hv : newId = v := by simpa using h'
        exact ⟨htab, rfl, hv.symm, rfl⟩
  · rw [if_neg htab] at h
    exact absurd h (by simp)

/-! ## Claim theorems -/

/-- Claim C1: for four times that parse as `%H:%M` (in particular for every
well-formed `HH:MM` time), the overlap checker returns `true` if and only
if the candidate's start lies within `[existingStart, existingEnd]`
inclusive or the candidate's end lies within `[existingStart, existingEnd]`
inclusive, endpoints compared chronologically (as minutes after midnight). -/
theorem C1_overlap_true_iff (es ee cs ce : String) (a b c d : Nat)
    (ha : hmVal es = some a) (hb : hmVal ee = some b)
    (hc : hmVal cs = some c) (hd : hmVal ce = some d) :
    (is_overlapping es ee cs ce = Except.ok true ↔
      ((a ≤ c ∧ c ≤ b) ∨ (a ≤ d ∧ d ≤ b))) ∧
    is_overlapping es ee cs ce =
      Except.ok (decide ((a ≤ c ∧ c ≤ b) ∨ (a ≤ d ∧ d ≤ b))) := by
  unfold hmVal at ha hb hc hd
  obtain ⟨p, hp, hap⟩ := Option.map_eq_some'.mp ha
  obtain ⟨q, hq, hbq⟩ := Option.map_eq_some'.mp hb
  obtain ⟨u, hu, hcu⟩ := Option.map_eq_some'.mp hc
  obtain ⟨v, hv, hdv⟩ := Option.map_eq_some'.mp hd
  subst hap hbq hcu hdv
  have heval := is_overlapping_eval es ee cs ce p q u v hp hq hu hv
  refine ⟨?_, heval⟩
  rw [heval]
  simp

/-- Witness for C1 at `existing = [10:00, 11:00]`, `candidate = [10:30, 10:45]`. -/
theorem C1_overlap_true_iff_witness :
    hmVal "10:00" = some 600 ∧ hmVal "11:00" = some 660 ∧
    hmVal "10:30" = some 630 ∧ hmVal "10:45" = some 645 ∧
    (is_overlapping "10:00" "11:00" "10:30" "10:45" = Except.ok true ↔
      ((600 ≤ 630 ∧ 630 ≤ 660) ∨ (600 ≤ 645 ∧ 645 ≤ 660))) :=
  ⟨by decide, by decide, by decide, by decide,
    (C1_overlap_true_iff "10:00" "11:00" "10:30" "10:45" 600 660 630 645
      (by decide) (by decide) (by decide) (by decide)).1⟩

/-- Claim C4: when the candidate interval strictly contains the existing one
(candidate starts strictly before and ends strictly after), neither
candidate endpoint falls inside the existing interval and the checker
returns `false`. -/
theorem C4_containment_not_flagged (es ee cs ce : String) (a b c d : Nat)
    (ha : hmVal es = some a) (hb : hmVal ee = some b)
    (hc : hmVal cs = some c) (hd : hmVal ce = some d)
    (hca : c < a) (hbd : b < d) :
    is_overlapping es ee cs ce = Except.ok false := by
  unfold hmVal at ha hb hc hd
  obtain ⟨p, hp, hap⟩ := Option.map_eq_some'.mp ha
  obtain ⟨q, hq, hbq⟩ := Option.map_eq_some'.mp hb
  obtain ⟨u, hu, hcu⟩ := Option.map_eq_some'.mp hc
  obtain ⟨v, hv, hdv⟩ := Option.map_eq_some'.mp hd
  subst hap hbq hcu hdv
  rw [is_overlapping_eval es ee cs ce p q u v hp hq hu hv]
  simp only [Except.ok.injEq, decide_eq_false_iff_not]
  omega

/-- Witness for C4: the claim's own instance
`overlaps("10:00","11:00","09:00","12:00")` is `false`. -/
theorem C4_containment_not_flagged_witness :
    is_overlapping "10:00" "11:00" "09:00" "12:00" = Except.ok false :=
  C4_containment_not_flagged "10:00" "11:00" "09:00" "12:00" 600 660 540 720
    (by decide) (by decide) (by decide) (by decide) (by decide) (by decide)

/-- Claim C6 counterexample: `"9:30"` does not match the strict 24-hour
`HH:MM` shape, yet the checker does not fail with a parse error on it —
it parses (CPython `strptime` accepts a one-digit hour) and a boolean is
returned. -/
theorem C6_counterexample :
    strictHM "9:30" = false ∧
    is_overlapping "9:30" "10:00" "9:35" "9:40" = Except.ok true := by
  decide

/-- Claim C6 (amended): the checker fails with a parse error if and only if
one of the four strings fails to parse under the flexible `%H:%M` format
(hour one digit or two digits at most 23, minute one digit or two digits
at most 59); every strict `HH:MM` string parses, so on four such strings
a boolean is returned without error; and a parse failure arising while
scanning the ledger propagates to the booking caller unchanged. -/
theorem C6_parse_error_policy (s1 e1 s2 e2 : String) :
    (exceptIsOk (is_overlapping s1 e1 s2 e2) = true ↔
      ((parseHM s1).isSome = true ∧ (parseHM e1).isSome = true ∧
        (parseHM s2).isSome = true ∧ (parseHM e2).isSome = true)) ∧
    (strictHM s1 = true → strictHM e1 = true → strictHM s2 = true →
      strictHM e2 = true → ∃ b, is_overlapping s1 e1 s2 e2 = Except.ok b) ∧
    (∀ (st : Store) (newId : String) (tn : Int) (cn pn date : String) (err : Err),
      st.tables.any (fun t => t.number == tn) = true →
      findConflict st.reservations tn date s2 e2 = Except.error err →
      (create_reservation st newId tn cn pn date s2 e2).1 = Except.error err) := by
  refine ⟨?_, ?_, ?_⟩
  · rw [is_overlapping_isOk]
    simp
    tauto
  · intro h1 h2 h3 h4
    have hsome := (is_overlapping_isOk s1 e1 s2 e2).symm
    rw [strictHM_isSome s1 h1, strictHM_isSome e1 h2, strictHM_isSome s2 h3,
      strictHM_isSome e2 h4] at hsome
    simp only [Bool.and_self] at hsome
    cases hov : is_overlapping s1 e1 s2 e2 with
    | error e =>
      rw [hov] at hsome
      exact absurd hsome.symm (by simp [exceptIsOk])
    | ok b => exact ⟨b, rfl⟩
  · intro st newId tn cn pn date err htab hfc
    unfold create_reservation
    rw [if_pos htab, hfc]

/-- Witness for C6 (amended): a boolean comes back on strict inputs, and a
stored malformed end time `"25:00"` propagates as that parse error out of
the booking call. -/
theorem C6_parse_error_policy_witness :
    (∃ b, is_overlapping "10:00" "11:00" "10:30" "10:45" = Except.ok b) ∧
    (create_reservation
        ⟨[⟨1, 1, 4, false, none⟩],
          [⟨"r1", 1, "Alice", "111", "2024-05-01", "10:00", "25:00"⟩]⟩
        "r2" 1 "Bob" "222" "2024-05-01" "11:00" "11:30").1 =
      Except.error (Err.parseError "25:00") :=
  ⟨(C6_parse_error_policy "10:00" "11:00" "10:30" "10:45").2.1
      (by decide) (by decide) (by decide) (by decide),
    (C6_parse_error_policy "10:00" "25:00" "11:00" "11:30").2.2
      ⟨[⟨1, 1, 4, false, none⟩],
        [⟨"r1", 1, "Alice", "111", "2024-05-01", "10:00", "25:00"⟩]⟩
      "r2" 1 "Bob" "222" "2024-05-01" (Err.parseError "25:00")
      (by decide) (by decide)⟩

/-- Claim C5: booking against a table number no stored table carries fails
with `tableNotFound`, leaves the store unchanged, and the operation trace
is exactly the tables scan — the reservation ledger is neither scanned
nor written. -/
theorem C5_table_not_found (st : Store) (newId : String) (tn : Int)
    (cn pn date sSt sEn : String)
    (h : ∀ t ∈ st.tables, t.number ≠ tn) :
    (create_reservation st newId tn cn pn date sSt sEn).1 =
      Except.error (Err.tableNotFound tn) ∧
    (create_reservation st newId tn cn pn date sSt sEn).2.1 = st ∧
    (create_reservation st newId tn cn pn date sSt sEn).2.2 = [Op.tablesScan] := by
  have hany : st.tables.any (fun t => t.number == tn) = false := by
    rw [List.any_eq_false]
    intro t ht
    simp [h t ht]
  unfold create_reservation
  rw [if_neg (by simp [hany])]
  exact ⟨rfl, rfl, rfl⟩

/-- Witness for C5: one table with number 2, booking asks for number 1. -/
theorem C5_table_not_found_witness :
    (create_reservation ⟨[⟨7, 2, 4, false, none⟩], []⟩ "r1" 1 "Alice" "111"
        "2024-05-01" "10:00" "11:00").1 = Except.error (Err.tableNotFound 1) ∧
    (create_reservation ⟨[⟨7, 2, 4, false, none⟩], []⟩ "r1" 1 "Alice" "111"
        "2024-05-01" "10:00" "11:00").2.1 = ⟨[⟨7, 2, 4, false, none⟩], []⟩ ∧
    (create_reservation ⟨[⟨7, 2, 4, false, none⟩], []⟩ "r1" 1 "Alice" "111"
        "2024-05-01" "10:00" "11:00").2.2 = [Op.tablesScan] :=
  C5_table_not_found ⟨[⟨7, 2, 4, false, none⟩], []⟩ "r1" 1 "Alice" "111"
    "2024-05-01" "10:00" "11:00" (by decide)

/-- Claim C2: given that the requested table exists, the fresh identifier is
fresh, and the overlap checker reaches a verdict on every stored
reservation for the same table and (string-equal) date, booking fails
with `slotConflict` if and only if some such reservation's slot is
flagged by the checker; on that failure the store is unchanged (no
partial insert); and with no flagged reservation the booking succeeds,
appends exactly the one new reservation, and returns its identifier. -/
theorem C2_booking_conflict (st : Store) (newId : String) (tn : Int)
    (cn pn date sSt sEn : String)
    (htab : st.tables.any (fun t => t.number == tn) = true)
    (hfresh : ∀ r ∈ st.reservations, r.id ≠ newId)
    (hp : ∀ r ∈ st.reservations, r.tableNumber = tn → r.date = date →
      exceptIsOk (is_overlapping r.slotTimeStart r.slotTimeEnd sSt sEn) = true) :
    ((create_reservation st newId tn cn pn date sSt sEn).1 =
        Except.error Err.slotConflict ↔
      ∃ r ∈ st.reservations, r.tableNumber = tn ∧ r.date = date ∧
        is_overlapping r.slotTimeStart r.slotTimeEnd sSt sEn = Except.ok true) ∧
    ((create_reservation st newId tn cn pn date sSt sEn).1 =
        Except.error Err.slotConflict →
      (create_reservation st newId tn cn pn date sSt sEn).2.1 = st) ∧
    ((¬ ∃ r ∈ st.reservations, r.tableNumber = tn ∧ r.date = date ∧
        is_overlapping r.slotTimeStart r.slotTimeEnd sSt sEn = Except.ok true) →
      (create_reservation st newId tn cn pn date sSt sEn).1 = Except.ok newId ∧
      (create_reservation st newId tn cn pn date sSt sEn).2.1.reservations =
        st.reservations ++ [⟨newId, tn, cn, pn, date, sSt, sEn⟩] ∧
      (create_reservation st newId tn cn pn date sSt sEn).2.1.tables = st.tables) := by
  rcases findConflict_not_error st.reservations tn date sSt sEn hp with hfc | hfc
  · have key : create_reservation st newId tn cn pn date sSt sEn =
        (Except.error Err.slotConflict, st, [Op.tablesScan, Op.reservationsScan]) := by
      unfold create_reservation
      rw [if_pos htab, hfc]
    have hex := (findConflict_ok_true_iff st.reservations tn date sSt sEn hp).mp hfc
    rw [key]
    refine ⟨⟨fun _ => hex, fun _ => rfl⟩, fun _ => rfl, fun hne => absurd hex hne⟩
  · have key : create_reservation st newId tn cn pn date sSt sEn =
        (Except.ok newId,
          { st with
              reservations :=
                putItemReservation st.reservations
                  (Reservation.mk newId tn cn pn date sSt sEn) },
          [Op.tablesScan, Op.reservationsScan, Op.reservationsPut]) := by
      unfold create_reservation
      rw [if_pos htab, hfc]
    rw [key]
    refine ⟨?_, ?_, ?_⟩
    · constructor
      · intro habs
        exact absurd habs (by simp)
      · intro hex
        have := (findConflict_ok_true_iff st.reservations tn date sSt sEn hp).mpr hex
        rw [hfc] at this
        exact absurd this (by simp)
    · intro habs
      exact absurd habs (by simp)
    · intro _
      refine ⟨rfl, ?_, rfl⟩
      show putItemReservation st.reservations _ = _
      rw [putItemReservation, filter_ne_id_eq_self st.reservations newId hfresh]

/-- Witness for C2: two bookings for the same table and date with
non-overlapping slots both succeed, the first leaving exactly its own
reservation in the ledger. -/
theorem C2_booking_conflict_witness :
    (create_reservation ⟨[⟨1, 1, 4, false, none⟩], []⟩ "r1" 1 "Alice" "111"
        "2024-05-01" "10:00" "11:00").1 = Except.ok "r1" ∧
    (create_reservation ⟨[⟨1, 1, 4, false, none⟩], []⟩ "r1" 1 "Alice" "111"
        "2024-05-01" "10:00" "11:00").2.1 =
      ⟨[⟨1, 1, 4, false, none⟩],
        [⟨"r1", 1, "Alice", "111", "2024-05-01", "10:00", "11:00"⟩]⟩ ∧
    (create_reservation
        ⟨[⟨1, 1, 4, false, none⟩],
          [⟨"r1", 1, "Alice", "111", "2024-05-01", "10:00", "11:00"⟩]⟩
        "r2" 1 "Bob" "222" "2024-05-01" "12:00" "13:00").1 = Except.ok "r2" := by
  refine ⟨?_, by decide, ?_⟩
  · exact ((C2_booking_conflict ⟨[⟨1, 1, 4, false, none⟩], []⟩ "r1" 1 "Alice" "111"
      "2024-05-01" "10:00" "11:00" (by decide) (by simp) (by simp)).2.2 (by simp)).1
  · exact ((C2_booking_conflict
      ⟨[⟨1, 1, 4, false, none⟩],
        [⟨"r1", 1, "Alice", "111", "2024-05-01", "10:00", "11:00"⟩]⟩
      "r2" 1 "Bob" "222" "2024-05-01" "12:00" "13:00"
      (by decide) (by decide) (by decide)).2.2 (by decide)).1

/-- Claim C3 counterexample: starting from a store with table 1 and an empty
ledger, booking `[10:00, 11:00]` and then `[09:00, 12:00]` (same table,
same date) both succeed — the second candidate strictly contains the
first, which the asymmetric checker does not flag.  The reached ledger
holds two distinct reservations for the same table and date which the
checker does flag when the later one is taken as the existing
reservation, so the claimed either-orientation invariant fails. -/
theorem C3_counterexample :
    (create_reservation ⟨[⟨1, 1, 4, false, none⟩], []⟩ "r1" 1 "Alice" "111"
        "2024-05-01" "10:00" "11:00").1 = Except.ok "r1" ∧
    (create_reservation ⟨[⟨1, 1, 4, false, none⟩], []⟩ "r1" 1 "Alice" "111"
        "2024-05-01" "10:00" "11:00").2.1 =
      ⟨[⟨1, 1, 4, false, none⟩],
        [⟨"r1", 1, "Alice", "111", "2024-05-01", "10:00", "11:00"⟩]⟩ ∧
    (create_reservation
        ⟨[⟨1, 1, 4, false, none⟩],
          [⟨"r1", 1, "Alice", "111", "2024-05-01", "10:00", "11:00"⟩]⟩
        "r2" 1 "Bob" "222" "2024-05-01" "09:00" "12:00").1 = Except.ok "r2" ∧
    (create_reservation
        ⟨[⟨1, 1, 4, false, none⟩],
          [⟨"r1", 1, "Alice", "111", "2024-05-01", "10:00", "11:00"⟩]⟩
        "r2" 1 "Bob" "222" "2024-05-01" "09:00" "12:00").2.1.reservations =
      [⟨"r1", 1, "Alice", "111", "2024-05-01", "10:00", "11:00"⟩,
        ⟨"r2", 1, "Bob", "222", "2024-05-01", "09:00", "12:00"⟩] ∧
    (⟨"r1", 1, "Alice", "111", "2024-05-01", "10:00", "11:00"⟩ : Reservation) ≠
      ⟨"r2", 1, "Bob", "222", "2024-05-01", "09:00", "12:00"⟩ ∧
    is_overlapping "09:00" "12:00" "10:00" "11:00" = Except.ok true := by
  decide

/-- Claim C3 (amended): in every ledger state reachable by successful
bookings with fresh identifiers, for each fixed table number and date no
stored reservation is flagged by the overlap checker against any
later-inserted reservation — the invariant holds in the one orientation
the booking scan actually checks (earlier reservation as existing, later
as candidate), not in both. -/
theorem C3_no_flagged_pair_in_insertion_order (s : Store) (h : Reachable s) :
    s.reservations.Pairwise (fun a b => a.tableNumber = b.tableNumber →
      a.date = b.date →
      is_overlapping a.slotTimeStart a.slotTimeEnd b.slotTimeStart b.slotTimeEnd =
        Except.ok false) := by
  induction h with
  | init ts => simp
  | step s newId tn cn pn date sSt sEn hreach hfresh hok ih =>
    obtain ⟨htab, hfc, _, hst⟩ :=
      create_reservation_ok_inv s newId tn cn pn date sSt sEn newId hok
    rw [hst]
    show (putItemReservation s.reservations _).Pairwise _
    rw [putItemReservation, filter_ne_id_eq_self s.reservations newId hfresh,
      List.pairwise_append]
    refine ⟨ih, by simp, ?_⟩
    intro a ha b hb
    simp only [List.mem_singleton] at hb
    subst hb
    intro htn hdate
    exact (findConflict_ok_false_iff s.reservations tn date sSt sEn).mp hfc a ha htn hdate

/-- Witness for C3 (amended) at the one-step reachable state holding the
single reservation `[10:00, 11:00]` for table 1. -/
theorem C3_no_flagged_pair_witness :
    (create_reservation ⟨[⟨1, 1, 4, false, none⟩], []⟩ "r1" 1 "Alice" "111"
        "2024-05-01" "10:00" "11:00").2.1.reservations.Pairwise
      (fun a b => a.tableNumber = b.tableNumber → a.date = b.date →
        is_overlapping a.slotTimeStart a.slotTimeEnd b.slotTimeStart b.slotTimeEnd =
          Except.ok false) :=
  C3_no_flagged_pair_in_insertion_order _
    (Reachable.step ⟨[⟨1, 1, 4, false, none⟩], []⟩ "r1" 1 "Alice" "111"
      "2024-05-01" "10:00" "11:00" (Reachable.init _) (by simp) (by decide))

/-- Claim C7: `create_table` stores the table unconditionally — no
uniqueness check on `id` or `number`, any prior table under the same `id`
is overwritten — and returns the id it was given; a subsequent
`get_table` with that id returns exactly the stored attributes, the
`minOrder` field being whatever option was supplied at creation.  The
statement holds for every prior store state, which is exactly the absence
of any uniqueness precondition. -/
theorem C7_create_then_get_table (st : Store) (id number places : Int)
    (isVip : Bool) (minOrder : Option Int) :
    (create_table st id number places isVip minOrder).1 = id ∧
    get_table (create_table st id number places isVip minOrder).2 id =
      some ⟨id, number, places, isVip, minOrder⟩ := by
  refine ⟨rfl, ?_⟩
  show (putItemTable st.tables _).find? _ = _
  rw [putItemTable, List.find?_append]
  have hnone : (st.tables.filter
      (fun u => !(u.id == (Table.mk id number places isVip minOrder).id))).find?
        (fun t => t.id == id) = none := by
    rw [List.find?_eq_none]
    intro t ht
    have := (List.mem_filter.mp ht).2
    simpa using this
  rw [hnone]
  simp

/-- Claim C8: `get_tables` returns a permutation of all stored tables (no
table missed or invented) sorted ascending by the `id` field, whatever
order the store holds them in. -/
theorem C8_tables_sorted (st : Store) :
    (get_tables st).Perm st.tables ∧
    (get_tables st).Pairwise (fun a b => a.id ≤ b.id) := by
  constructor
  · exact List.mergeSort_perm st.tables _
  · have hs : (st.tables.mergeSort fun a b : Table => decide (a.id ≤ b.id)).Pairwise
        (fun a b : Table => decide (a.id ≤ b.id)) :=
      List.sorted_mergeSort
        (fun a b c hab hbc => by
          simp only [decide_eq_true_eq] at hab hbc ⊢
          omega)
        (fun a b => by
          simp only [Bool.or_eq_true, decide_eq_true_eq]
          omega)
        st.tables
    exact hs.imp (fun h => by simpa using h)

theorem lookahead_eq_any (p : Char → Bool) (hp : p '\n' = false) (l : List Char) :
    lookahead p l = (l.takeWhile (fun c => !(c == '\n'))).any p := by
  induction l with
  | nil => rfl
  | cons c rest ih =>
    by_cases hc : c = '\n'
    · subst hc
      simp [lookahead, hp]
    · have hcb : (c == '\n') = false := by simp [hc]
      rw [lookahead, List.takeWhile_cons]
      simp [hcb, ih]

theorem dotMinTail_eq (k : Nat) (l : List Char) :
    dotMinTail k l =
      (!(regexBody l).contains '\n' && decide (k ≤ (regexBody l).length)) := by
  induction l generalizing k with
  | nil => cases k <;> simp [dotMinTail, regexBody]
  | cons c rest ih =>
    cases rest with
    | nil =>
      by_cases hc : c = '\n'
      · subst hc
        cases k with
        | zero => simp [dotMinTail, dollarAt, regexBody]
        | succ k => simp [dotMinTail, regexBody]
      · have hcb : (c == '\n') = false := by simp [hc]
        have hc' : ¬('\n' : Char) = c := Ne.symm hc
        cases k with
        | zero => simp [dotMinTail, dollarAt, regexBody, hcb, hc']
        | succ k =>
          cases k with
          | zero => simp [dotMinTail, dollarAt, regexBody, hcb, hc']
          | succ k => simp [dotMinTail, dollarAt, regexBody, hcb, hc']
    | cons d rest' =>
      by_cases hc : c = '\n'
      · subst hc
        cases k with
        | zero =>
          rw [show dotMinTail 0 ('\n' :: d :: rest') =
            (dollarAt ('\n' :: d :: rest') ||
              (!(('\n' : Char) == '\n') && dotMinTail 0 (d :: rest'))) from rfl]
          rw [show regexBody ('\n' :: d :: rest') =
            '\n' :: regexBody (d :: rest') from rfl]
          simp [dollarAt]
        | succ k =>
          rw [show dotMinTail (k + 1) ('\n' :: d :: rest') =
            (!(('\n' : Char) == '\n') && dotMinTail k (d :: rest')) from rfl]
          rw [show regexBody ('\n' :: d :: rest') =
            '\n' :: regexBody (d :: rest') from rfl]
          simp
      · have hcb : (c == '\n') = false := by simp [hc]
        have hc' : ¬('\n' : Char) = c := Ne.symm hc
        cases k with
        | zero =>
          rw [show dotMinTail 0 (c :: d :: rest') =
            (dollarAt (c :: d :: rest') ||
              (!(c == '\n') && dotMinTail 0 (d :: rest'))) from rfl]
          rw [show dollarAt (c :: d :: rest') = false from rfl]
          rw [ih 0]
          rw [show regexBody (c :: d :: rest') = c :: regexBody (d :: rest') from rfl]
          simp [hcb, hc']
        | succ k =>
          rw [show dotMinTail (k + 1) (c :: d :: rest') =
            (!(c == '\n') && dotMinTail k (d :: rest')) from rfl]
          rw [ih k]
          rw [show regexBody (c :: d :: rest') = c :: regexBody (d :: rest') from rfl]
          simp [hcb, hc', Nat.succ_le_succ_iff]

theorem takeWhile_eq_regexBody (l : List Char)
    (h : (regexBody l).contains '\n' = false) :
    l.takeWhile (fun c => !(c == '\n')) = regexBody l := by
  induction l with
  | nil => rfl
  | cons c rest ih =>
    cases rest with
    | nil =>
      by_cases hc : c = '\n'
      · subst hc
        simp [regexBody, List.takeWhile_cons]
      · simp [regexBody, List.takeWhile_cons, hc]
    | cons d rest' =>
      rw [show regexBody (c :: d :: rest') = c :: regexBody (d :: rest') from rfl] at h ⊢
      simp only [List.contains_cons, Bool.or_eq_false_iff, beq_eq_false_iff_ne] at h
      have hc : c ≠ '\n' := fun hcc => h.1 hcc.symm
      have hcb : (c == '\n') = false := by simp [hc]
      rw [List.takeWhile_cons]
      simp [hcb, ih h.2]

/-- Claim C9 counterexample: a 14-character password containing a letter, a
digit and a symbol, but also an interior newline, is rejected — the
regex's `.` and `$` do not span newlines — so "at least 12 characters
with a letter, a digit and a symbol" is not sufficient for acceptance. -/
theorem C9_counterexample :
    validate_password "aaaaaaaaaa1!\nx" = false ∧
    12 ≤ "aaaaaaaaaa1!\nx".length ∧
    "aaaaaaaaaa1!\nx".data.any Char.isAlpha = true ∧
    "aaaaaaaaaa1!\nx".data.any Char.isDigit = true ∧
    "aaaaaaaaaa1!\nx".data.any isSymbolChar = true := by
  decide

/-- Claim C9 (amended): the password validator accepts exactly the strings
whose body — the string minus at most one trailing newline — is free of
newlines, has at least 12 characters, and contains at least one ASCII
letter, one digit, and one symbol (a character that is neither
alphanumeric, underscore, nor whitespace); in particular `"short1!"` is
rejected (too short) and `"longenough123!"` is accepted. -/
theorem C9_password_policy (s : String) :
    (validate_password s = true ↔
      ((regexBody s.data).contains '\n' = false ∧
        12 ≤ (regexBody s.data).length ∧
        (regexBody s.data).any Char.isAlpha = true ∧
        (regexBody s.data).any Char.isDigit = true ∧
        (regexBody s.data).any isSymbolChar = true)) ∧
    validate_password "short1!" = false ∧
    validate_password "longenough123!" = true := by
  refine ⟨?_, by decide, by decide⟩
  unfold validate_password
  constructor
  · intro h
    simp only [Bool.and_eq_true] at h
    obtain ⟨⟨⟨hA, hD⟩, hS⟩, hT⟩ := h
    rw [dotMinTail_eq] at hT
    simp only [Bool.and_eq_true, Bool.not_eq_true', decide_eq_true_eq] at hT
    obtain ⟨hnc, hlen⟩ := hT
    have htw := takeWhile_eq_regexBody s.data hnc
    rw [lookahead_eq_any Char.isAlpha (by decide) s.data, htw] at hA
    rw [lookahead_eq_any Char.isDigit (by decide) s.data, htw] at hD
    rw [lookahead_eq_any isSymbolChar (by decide) s.data, htw] at hS
    exact ⟨hnc, hlen, hA, hD, hS⟩
  · intro ⟨hnc, hlen, hA, hD, hS⟩
    have htw := takeWhile_eq_regexBody s.data hnc
    simp only [Bool.and_eq_true]
    refine ⟨⟨⟨?_, ?_⟩, ?_⟩, ?_⟩
    · rw [lookahead_eq_any Char.isAlpha (by decide) s.data, htw]
      exact hA
    · rw [lookahead_eq_any Char.isDigit (by decide) s.data, htw]
      exact hD
    · rw [lookahead_eq_any isSymbolChar (by decide) s.data, htw]
      exact hS
    · rw [dotMinTail_eq]
      have hnm : ('\n' : Char) ∉ regexBody s.data := by simpa using hnc
      simp [hnm, hlen]

/-- Claim C10: sign-in runs the same email and password validations as
sign-up, in the same order, before any identity-provider call: whenever
either format check fails, sign-in returns the corresponding validation
error with an empty provider-call list (no authentication attempt), and
sign-up fails with exactly the same validation error, likewise without
contacting the provider. -/
theorem C10_signin_validates_first (idp : Idp) (email password : String)
    (h : validate_email email = false ∨ validate_password password = false) :
    (signin idp email password).2 = [] ∧
    ((signin idp email password).1 = Except.error Err.invalidEmail ∨
      (signin idp email password).1 = Except.error Err.invalidPassword) ∧
    ∀ firstName lastName : String,
      (signup idp email firstName lastName password).2 = [] ∧
      ((signup idp email firstName lastName password).1 =
          Except.error Err.invalidEmail ↔
        (signin idp email password).1 = Except.error Err.invalidEmail) ∧
      ((signup idp email firstName lastName password).1 =
          Except.error Err.invalidPassword ↔
        (signin idp email password).1 = Except.error Err.invalidPassword) := by
  by_cases he : validate_email email = true
  · have hpw : validate_password password = false := by
      rcases h with h | h
      · rw [h] at he
        exact absurd he (by simp)
      · exact h
    simp [signin, signup, he, hpw]
  · have he' : validate_email email = false := by
      simpa using he
    simp [signin, signup, he']

/-- Witness for C10: a syntactically invalid email fails sign-in with a
validation error and no provider call. -/
theorem C10_signin_validates_first_witness :
    (signin ⟨none, none, fun _ _ => none⟩ "not-an-email" "longenough123!").2 = [] ∧
    ((signin ⟨none, none, fun _ _ => none⟩ "not-an-email" "longenough123!").1 =
        Except.error Err.invalidEmail ∨
      (signin ⟨none, none, fun _ _ => none⟩ "not-an-email" "longenough123!").1 =
        Except.error Err.invalidPassword) :=
  ⟨(C10_signin_validates_first ⟨none, none, fun _ _ => none⟩ "not-an-email"
      "longenough123!" (Or.inl (by decide))).1,
    (C10_signin_validates_first ⟨none, none, fun _ _ => none⟩ "not-an-email"
      "longenough123!" (Or.inl (by decide))).2.1⟩

end BookingApp
